/-
Verification of the Observer-pattern notifier in `src/observer.ts`
(classes `UserSubscriber` and `YoutubeChannel`).

Embedding notes:
* A TypeScript `Subscriber` object is modelled as a structure carrying a
  numeric `id` (standing for the object reference: two handles are
  identity-equal iff their `id`s coincide) and the display `name` used
  for console output.
* `YoutubeChannel` holds a `name` and an ordered list `subscriber`
  (the source field is called `subscriber` as well).
* `UserSubscriber.update` only prints one console line; `videoUpload`
  prints an announcement line and then iterates the subscriber array
  with `Array.prototype.map`, invoking `update(title)` on each entry.
  The broadcast is modelled as a recursive traversal producing a trace
  of events: console lines (`Ev.out`) and `receive` invocations
  (`Ev.recv`).
* For the re-entrancy claim a second model (`runFrom` below) reproduces
  the ECMAScript `Array.prototype.map` semantics: the array object and
  its length are fixed when the iteration starts; `push` (from
  `addSubscriber`) mutates that object in place only while the channel
  field still aliases it, while `filter` (from `removeSubscriber`)
  rebinds the field to a fresh array and breaks the alias.
-/
import Mathlib

set_option maxHeartbeats 1000000

/-- A subscriber handle: `id` models the JS object reference (identity),
`name` is the display name printed by `update`. -/
structure Subscriber where
  id : Nat
  name : String
deriving DecidableEq, Repr

/-- `UserSubscriber.update`: the single console line it prints,
`🔔 ${this.name} got notified: New video "${videoTitle}" uploaded!`. -/
def Subscriber.update (s : Subscriber) (videoTitle : String) : String :=
  "🔔 " ++ s.name ++ " got notified: New video \"" ++ videoTitle ++ "\" uploaded!"

/-- The notifier: `private subscriber: Subscriber[]` and `private name`. -/
structure YoutubeChannel where
  name : String
  subscriber : List Subscriber
deriving DecidableEq, Repr

/-- `new YoutubeChannel(channelName)`: empty subscriber array. -/
def YoutubeChannel.mk0 (channelName : String) : YoutubeChannel :=
  { name := channelName, subscriber := [] }

/-- `addSubscriber`: `this.subscriber.push(subscriber)`. -/
def YoutubeChannel.addSubscriber (ch : YoutubeChannel) (s : Subscriber) :
    YoutubeChannel :=
  { ch with subscriber := ch.subscriber ++ [s] }

/-- `removeSubscriber`:
`this.subscriber = this.subscriber.filter((sub) => sub !== subscriber)`. -/
def YoutubeChannel.removeSubscriber (ch : YoutubeChannel) (s : Subscriber) :
    YoutubeChannel :=
  { ch with subscriber := ch.subscriber.filter (fun sub => sub.id != s.id) }

/-- Observable events of a run: a console output line, or a `receive`
(`update`) invocation on a handle with the event string. -/
inductive Ev where
  | out (line : String)
  | recv (s : Subscriber) (event : String)
deriving DecidableEq, Repr

/-- The iteration `this.subscriber.map((subscriber) => { subscriber.update(title) })`
with the repository's `UserSubscriber` handles: each entry in order gets a
`receive` invocation, which prints its one line. -/
def broadcast (subs : List Subscriber) (title : String) : List Ev :=
  match subs with
  | [] => []
  | s :: rest => Ev.recv s title :: Ev.out (s.update title) :: broadcast rest title

/-- The announcement line `📺 ${this.name} uploaded: "${title}"`. -/
def YoutubeChannel.uploadLine (ch : YoutubeChannel) (title : String) : String :=
  "📺 " ++ ch.name ++ " uploaded: \"" ++ title ++ "\""

/-- `videoUpload(title)`: prints the announcement, then broadcasts to the
current subscriber array.  Returns the channel state after the call and
the trace of events, in order. -/
def YoutubeChannel.videoUpload (ch : YoutubeChannel) (title : String) :
    YoutubeChannel × List Ev :=
  (ch, Ev.out (ch.uploadLine title) :: broadcast ch.subscriber title)

/-- The `receive` invocations of a trace, in order. -/
def receives : List Ev → List Subscriber
  | [] => []
  | Ev.recv s _ :: rest => s :: receives rest
  | Ev.out _ :: rest => receives rest

/-- The console lines of a trace, in order. -/
def outputs : List Ev → List String
  | [] => []
  | Ev.out l :: rest => l :: outputs rest
  | Ev.recv _ _ :: rest => outputs rest

/-- Iterated `addSubscriber` of the same handle, `n` times. -/
def YoutubeChannel.addN (ch : YoutubeChannel) (s : Subscriber) : Nat → YoutubeChannel
  | 0 => ch
  | n + 1 => (ch.addN s n).addSubscriber s

/-- An external call on the channel, for reachability. -/
inductive Op where
  | add (s : Subscriber)
  | remove (s : Subscriber)
  | publish (e : String)
deriving DecidableEq, Repr

/-- Apply one external call to the channel state. -/
def YoutubeChannel.applyOp (ch : YoutubeChannel) : Op → YoutubeChannel
  | Op.add s => ch.addSubscriber s
  | Op.remove s => ch.removeSubscriber s
  | Op.publish e => (ch.videoUpload e).1

/-- Run a finite sequence of external calls from a state. -/
def YoutubeChannel.runOps (ch : YoutubeChannel) : List Op → YoutubeChannel
  | [] => ch
  | op :: ops => (ch.applyOp op).runOps ops

-- Basic lemmas about traces of `broadcast`.

theorem receives_broadcast (subs : List Subscriber) (title : String) :
    receives (broadcast subs title) = subs := by
  induction subs with
  | nil => rfl
  | cons s rest ih => simp [broadcast, receives, ih]

theorem outputs_broadcast (subs : List Subscriber) (title : String) :
    outputs (broadcast subs title) = subs.map (fun s => s.update title) := by
  induction subs with
  | nil => rfl
  | cons s rest ih => simp [broadcast, outputs, ih]

/-
Re-entrancy model.  `Array.prototype.map` fixes the array object being
iterated and its length `len` before the first callback runs; the
element at index `i` is read from that object just before each call.
`addSubscriber` (`push`) mutates the array object in place — visible to
the iteration only while `this.subscriber` still aliases it, and only at
indices `≥ len`.  `removeSubscriber` (`filter`) rebinds
`this.subscriber` to a fresh array, leaving the iterated object intact.
-/

/-- Channel operations a re-entrant `receive` callback may perform on
the same notifier during a broadcast. -/
inductive Act where
  | add (s : Subscriber)
  | remove (s : Subscriber)
deriving DecidableEq, Repr

/-- Mid-broadcast heap state: `arr` is the contents of the array object
the `map` iteration reads from; `fld` is the current value of the
`this.subscriber` field; `aliased` records whether the field still
refers to that same array object. -/
structure BState where
  arr : List Subscriber
  fld : List Subscriber
  aliased : Bool
deriving DecidableEq, Repr

/-- Effect of one re-entrant channel call on the mid-broadcast state. -/
def applyAct (st : BState) : Act → BState
  | Act.add s =>
      { arr := if st.aliased then st.arr ++ [s] else st.arr,
        fld := st.fld ++ [s],
        aliased := st.aliased }
  | Act.remove s =>
      { arr := st.arr,
        fld := st.fld.filter (fun sub => sub.id != s.id),
        aliased := false }

/-- The `map` iteration from index `i` up to the length `len` captured
at the start: read `arr[i]`, invoke that handle (recording it), apply
the channel calls its callback makes, continue.  Returns the final heap
state and the handles invoked, in order. -/
def runFrom (beh : Subscriber → String → List Act) (title : String)
    (st : BState) (i len : Nat) : BState × List Subscriber :=
  if _h : i < len then
    match st.arr[i]? with
    | none => runFrom beh title st (i + 1) len
    | some s =>
        let r := runFrom beh title ((beh s title).foldl applyAct st) (i + 1) len
        (r.1, s :: r.2)
  else (st, [])
termination_by len - i

/-- `videoUpload` against arbitrary (possibly re-entrant) subscriber
behaviours: the iteration starts on the array object currently in the
field, with its length captured, the field aliasing it.  Returns the
channel after the call and the handles whose `update` was invoked. -/
def YoutubeChannel.videoUploadR (beh : Subscriber → String → List Act)
    (ch : YoutubeChannel) (title : String) : YoutubeChannel × List Subscriber :=
  ({ ch with subscriber :=
      (runFrom beh title ⟨ch.subscriber, ch.subscriber, true⟩ 0
        ch.subscriber.length).1.fld },
   (runFrom beh title ⟨ch.subscriber, ch.subscriber, true⟩ 0
      ch.subscriber.length).2)

theorem applyAct_arr (st : BState) (a : Act) :
    ∃ ex, (applyAct st a).arr = st.arr ++ ex := by
  cases a with
  | add s =>
      by_cases h : st.aliased
      · exact ⟨[s], by simp [applyAct, h]⟩
      · exact ⟨[], by simp [applyAct, h]⟩
  | remove s => exact ⟨[], by simp [applyAct]⟩

theorem foldl_applyAct_arr (acts : List Act) (st : BState) :
    ∃ ex, (acts.foldl applyAct st).arr = st.arr ++ ex := by
  induction acts generalizing st with
  | nil => exact ⟨[], by simp⟩
  | cons a rest ih =>
      obtain ⟨ex1, h1⟩ := applyAct_arr st a
      obtain ⟨ex2, h2⟩ := ih (applyAct st a)
      exact ⟨ex1 ++ ex2, by simp [h2, h1]⟩

theorem runFrom_snapshot (beh : Subscriber → String → List Act)
    (title : String) (snap : List Subscriber) (i : Nat) (st : BState)
    (hex : ∃ ex, st.arr = snap ++ ex) :
    (runFrom beh title st i snap.length).2 = snap.drop i := by
  obtain ⟨ex, harr⟩ := hex
  rw [runFrom]
  by_cases h : i < snap.length
  · rw [dif_pos h]
    have hget : st.arr[i]? = some snap[i] := by
      rw [harr, List.getElem?_append_left h, List.getElem?_eq_getElem h]
    rw [hget]
    obtain ⟨ex2, h2⟩ := foldl_applyAct_arr (beh snap[i] title) st
    have ih := runFrom_snapshot beh title snap (i + 1)
      ((beh snap[i] title).foldl applyAct st)
      ⟨ex ++ ex2, by rw [h2, harr]; simp⟩
    simp only [ih]
    rw [List.drop_eq_getElem_cons h]
  · rw [dif_neg h]
    simp [List.drop_eq_nil_of_le (Nat.le_of_not_lt h)]
termination_by snap.length - i

-- Helper: every entry of a reachable subscriber list was an argument of
-- some `addSubscriber` call (or was present at the start).

theorem runOps_mem (ch : YoutubeChannel) (ops : List Op) (s : Subscriber)
    (h : s ∈ (ch.runOps ops).subscriber) :
    s ∈ ch.subscriber ∨ Op.add s ∈ ops := by
  induction ops generalizing ch with
  | nil => exact Or.inl h
  | cons op rest ih =>
      rcases ih (ch.applyOp op) h with h1 | h1
      · cases op with
        | add t =>
            rcases List.mem_append.mp h1 with h2 | h2
            · exact Or.inl h2
            · right
              simp [List.mem_singleton.mp h2]
        | remove t =>
            exact Or.inl (List.mem_of_mem_filter h1)
        | publish e =>
            exact Or.inl h1
      · exact Or.inr (List.mem_cons_of_mem _ h1)

/-- C1: publish invokes `receive(event)` exactly once per entry currently
in the subscriber sequence, in insertion order, with the full trace
produced before the call returns; the number of `receive` invocations
equals the current length of the sequence. -/
theorem publish_receives_each_entry_in_order (ch : YoutubeChannel) (e : String) :
    receives (ch.videoUpload e).2 = ch.subscriber ∧
    (receives (ch.videoUpload e).2).length = ch.subscriber.length := by
  constructor
  · simp [YoutubeChannel.videoUpload, receives, receives_broadcast]
  · simp [YoutubeChannel.videoUpload, receives, receives_broadcast]

/-- C2: `removeSubscriber h` removes all entries identity-equal to `h`
(the result is an order-preserving subsequence of the original, no
remaining entry is identity-equal to `h`, and every entry not
identity-equal to `h` keeps its multiplicity). -/
theorem removeSubscriber_removes_all_matches (ch : YoutubeChannel)
    (h : Subscriber) :
    (ch.removeSubscriber h).subscriber.Sublist ch.subscriber ∧
    (∀ s ∈ (ch.removeSubscriber h).subscriber, s.id ≠ h.id) ∧
    (∀ s : Subscriber, s.id ≠ h.id →
      (ch.removeSubscriber h).subscriber.count s = ch.subscriber.count s) := by
  refine ⟨List.filter_sublist _, ?_, ?_⟩
  · intro s hs
    have := List.of_mem_filter hs
    simpa using this
  · intro s hs
    exact List.count_filter (by simpa using hs)

/-- C2 witness: a concrete channel with a duplicated handle — the
result is an order-preserving subsequence and the multiplicity of the
unrelated handle is kept. -/
theorem removeSubscriber_removes_all_matches_witness :
    ((⟨"c", [⟨0, "A"⟩, ⟨1, "B"⟩, ⟨0, "A"⟩]⟩ :
        YoutubeChannel).removeSubscriber ⟨0, "A"⟩).subscriber.Sublist
      [⟨0, "A"⟩, ⟨1, "B"⟩, ⟨0, "A"⟩] ∧
    ((⟨"c", [⟨0, "A"⟩, ⟨1, "B"⟩, ⟨0, "A"⟩]⟩ :
        YoutubeChannel).removeSubscriber ⟨0, "A"⟩).subscriber.count ⟨1, "B"⟩
      = ([⟨0, "A"⟩, ⟨1, "B"⟩, ⟨0, "A"⟩] : List Subscriber).count ⟨1, "B"⟩ :=
  ⟨(removeSubscriber_removes_all_matches
      ⟨"c", [⟨0, "A"⟩, ⟨1, "B"⟩, ⟨0, "A"⟩]⟩ ⟨0, "A"⟩).1,
   (removeSubscriber_removes_all_matches
      ⟨"c", [⟨0, "A"⟩, ⟨1, "B"⟩, ⟨0, "A"⟩]⟩ ⟨0, "A"⟩).2.2 ⟨1, "B"⟩ (by decide)⟩

/-- C3: for a handle previously added (possibly several times),
`removeSubscriber` followed immediately by publish yields zero `receive`
invocations on that handle. -/
theorem remove_then_publish_skips_handle (ch : YoutubeChannel)
    (s : Subscriber) (e : String) (hmem : s ∈ ch.subscriber) :
    ∀ x ∈ receives ((ch.removeSubscriber s).videoUpload e).2, x.id ≠ s.id := by
  intro x hx
  have hrec :
      receives ((ch.removeSubscriber s).videoUpload e).2
        = (ch.removeSubscriber s).subscriber := by
    simp [YoutubeChannel.videoUpload, receives, receives_broadcast]
  rw [hrec] at hx
  have := List.of_mem_filter hx
  simpa using this

/-- C3 witness: a handle added twice, removed, then a publish; the one
handle the broadcast does invoke is not the removed one. -/
theorem remove_then_publish_skips_handle_witness :
    (⟨0, "A"⟩ : Subscriber) ∈
      ([⟨0, "A"⟩, ⟨1, "B"⟩, ⟨0, "A"⟩] : List Subscriber) ∧
    (⟨1, "B"⟩ : Subscriber) ∈
      receives (((⟨"c", [⟨0, "A"⟩, ⟨1, "B"⟩, ⟨0, "A"⟩]⟩ :
        YoutubeChannel).removeSubscriber ⟨0, "A"⟩).videoUpload "e").2 ∧
    (⟨1, "B"⟩ : Subscriber).id ≠ (⟨0, "A"⟩ : Subscriber).id :=
  ⟨by decide, by decide,
   remove_then_publish_skips_handle
     ⟨"c", [⟨0, "A"⟩, ⟨1, "B"⟩, ⟨0, "A"⟩]⟩ ⟨0, "A"⟩ "e" (by decide)
     ⟨1, "B"⟩ (by decide)⟩

/-- C4: `addSubscriber` appends the handle as the new last element,
leaving existing entries in place; no uniqueness is enforced, so a
handle added `n` times occurs `n` more times and is invoked once per
occurrence by a publish. -/
theorem addSubscriber_appends_no_uniqueness (ch : YoutubeChannel)
    (s : Subscriber) (n : Nat) (e : String) :
    (ch.addSubscriber s).subscriber = ch.subscriber ++ [s] ∧
    (ch.addN s n).subscriber.count s = ch.subscriber.count s + n ∧
    (receives ((ch.addN s n).videoUpload e).2).count s
      = ch.subscriber.count s + n := by
  have hcount : ∀ m : Nat,
      (ch.addN s m).subscriber.count s = ch.subscriber.count s + m := by
    intro m
    induction m with
    | zero => simp [YoutubeChannel.addN]
    | succ k ihk =>
        simp [YoutubeChannel.addN, YoutubeChannel.addSubscriber, ihk,
          Nat.add_assoc]
  refine ⟨rfl, hcount n, ?_⟩
  have hrec : receives ((ch.addN s n).videoUpload e).2
      = (ch.addN s n).subscriber := by
    simp [YoutubeChannel.videoUpload, receives, receives_broadcast]
  rw [hrec]
  exact hcount n

/-- C5 counterexample: on the channel "codeWithMe" with no subscribers,
publishing "ReactJs" emits exactly one line, and that line is not the
claimed announcement form `<notifier-name> emitted: "<event>"`. -/
theorem publish_output_format_counterexample :
    outputs ((YoutubeChannel.mk0 "codeWithMe").videoUpload "ReactJs").2
      = ["📺 codeWithMe uploaded: \"ReactJs\""] ∧
    "📺 codeWithMe uploaded: \"ReactJs\"" ≠ "codeWithMe emitted: \"ReactJs\"" := by
  refine ⟨rfl, ?_⟩
  decide

/-- C5 (amended): publish emits exactly one announcement line
`📺 <notifier-name> uploaded: "<event>"`, followed by exactly one line
per current subscriber,
`🔔 <subscriber-name> got notified: New video "<event>" uploaded!`. -/
theorem publish_output_lines (ch : YoutubeChannel) (e : String) :
    outputs (ch.videoUpload e).2
      = ("📺 " ++ ch.name ++ " uploaded: \"" ++ e ++ "\"")
        :: ch.subscriber.map
            (fun s =>
              "🔔 " ++ s.name ++ " got notified: New video \"" ++ e
                ++ "\" uploaded!") := by
  simp [YoutubeChannel.videoUpload, outputs, outputs_broadcast,
    YoutubeChannel.uploadLine, Subscriber.update]

/-- C6: removing a handle with no identity-equal entry in the sequence
is a silent no-op: the channel is unchanged and a subsequent publish
behaves exactly as without the removal. -/
theorem remove_absent_is_noop (ch : YoutubeChannel) (h : Subscriber)
    (e : String) (habs : ∀ x ∈ ch.subscriber, x.id ≠ h.id) :
    ch.removeSubscriber h = ch ∧
    (ch.removeSubscriber h).videoUpload e = ch.videoUpload e := by
  have hfil : ch.subscriber.filter (fun sub => sub.id != h.id)
      = ch.subscriber := by
    rw [List.filter_eq_self]
    intro a ha
    simpa using habs a ha
  have hch : ch.removeSubscriber h = ch := by
    cases ch
    simp only [YoutubeChannel.removeSubscriber] at hfil ⊢
    simp [hfil]
  exact ⟨hch, by rw [hch]⟩

/-- C6 witness: removing the never-added handle id 2 from a concrete
channel leaves the channel, and the following publish, unchanged. -/
theorem remove_absent_is_noop_witness :
    (⟨"c", [⟨0, "A"⟩, ⟨1, "B"⟩]⟩ : YoutubeChannel).removeSubscriber ⟨2, "C"⟩
      = ⟨"c", [⟨0, "A"⟩, ⟨1, "B"⟩]⟩ ∧
    ((⟨"c", [⟨0, "A"⟩, ⟨1, "B"⟩]⟩ :
        YoutubeChannel).removeSubscriber ⟨2, "C"⟩).videoUpload "e"
      = (⟨"c", [⟨0, "A"⟩, ⟨1, "B"⟩]⟩ : YoutubeChannel).videoUpload "e" :=
  remove_absent_is_noop ⟨"c", [⟨0, "A"⟩, ⟨1, "B"⟩]⟩ ⟨2, "C"⟩ "e" (by decide)

/-- C7: publishing on a channel with an empty subscriber sequence makes
zero `receive` invocations, raises no error (the operation is a total
function), and still emits exactly the one announcement line. -/
theorem publish_empty_announcement_only (name e : String) :
    receives ((YoutubeChannel.mk0 name).videoUpload e).2 = [] ∧
    outputs ((YoutubeChannel.mk0 name).videoUpload e).2
      = [(YoutubeChannel.mk0 name).uploadLine e] := by
  constructor
  · simp [YoutubeChannel.videoUpload, YoutubeChannel.mk0, receives, broadcast]
  · simp [YoutubeChannel.videoUpload, YoutubeChannel.mk0, outputs, broadcast]

/-- C8: in every state reachable from construction by a finite sequence
of calls, each entry of the subscriber sequence is the argument of some
`addSubscriber` call in the history — so with non-null handle arguments
the sequence never contains a null/absent entry. -/
theorem reachable_entries_were_added (name : String) (ops : List Op)
    (s : Subscriber)
    (h : s ∈ ((YoutubeChannel.mk0 name).runOps ops).subscriber) :
    Op.add s ∈ ops := by
  rcases runOps_mem (YoutubeChannel.mk0 name) ops s h with h1 | h1
  · simp [YoutubeChannel.mk0] at h1
  · exact h1

/-- C8 witness: a concrete run with one add, one remove of another
handle, and a publish. -/
theorem reachable_entries_were_added_witness :
    (⟨0, "A"⟩ : Subscriber) ∈
      ((YoutubeChannel.mk0 "c").runOps
        [Op.add ⟨0, "A"⟩, Op.remove ⟨1, "B"⟩, Op.publish "e"]).subscriber ∧
    Op.add (⟨0, "A"⟩ : Subscriber) ∈
      [Op.add ⟨0, "A"⟩, Op.remove ⟨1, "B"⟩, Op.publish "e"] :=
  ⟨by decide,
   reachable_entries_were_added "c"
     [Op.add ⟨0, "A"⟩, Op.remove ⟨1, "B"⟩, Op.publish "e"] ⟨0, "A"⟩
     (by decide)⟩

/-- C9: publish is a pure observer of the state: the channel after
`videoUpload` equals the channel before it, and among the external
calls only add/remove change the state. -/
theorem publish_leaves_state_unchanged (ch : YoutubeChannel) (e : String) :
    (ch.videoUpload e).1 = ch ∧ ch.applyOp (Op.publish e) = ch :=
  ⟨rfl, rfl⟩

/-- C10: the handles invoked by a single publish are exactly the
subscriber sequence as it was at the moment publish was called, in
order, for every re-entrant behaviour of the callbacks (callbacks may
add or remove subscribers on the same notifier mid-broadcast without
being observed by the in-flight iteration). -/
theorem publish_uses_snapshot (beh : Subscriber → String → List Act)
    (ch : YoutubeChannel) (title : String) :
    (ch.videoUploadR beh title).2 = ch.subscriber := by
  have h := runFrom_snapshot beh title ch.subscriber 0
    ⟨ch.subscriber, ch.subscriber, true⟩ ⟨[], by simp⟩
  simpa [YoutubeChannel.videoUploadR] using h
